import Mathlib

/-!
Verification of the logging core of the `envoy` excerpt
(`source/common/common/logger.h`, spdlog branch): severity constants,
the `SpdLogStream` lazy log stream, the `Logger` wrapper, the `Registry`,
the locking stderr sink and the connection/stream context-formatting
macros.  Definitions are a shallow embedding of the C++ source; parts of
the repository that exist only as declarations in the header (the bodies
living in a `logger.cc` that is not part of the excerpt) are modelled
from the specification and marked as such.
-/

namespace Envoy

/-! ## Severity constants (logger.h, non-glog branch)

`constexpr int` values replacing the glog `#define`s. -/

def SPD_ONLY_TRACE : Int := 1

def SPD_ONLY_DEBUG : Int := 2

def INFO : Int := 3

def WARNING : Int := 4

def ERROR : Int := 5

def FATAL : Int := 6

/-! ## The backend emission primitives

The backend logging library (spdlog) supplies the emission primitives the
destructor of `SpdLogStream` invokes: `trace`, `debug`, `info`, `warn`,
`critical`.  These are exactly the five methods called in the source;
`BackendLevel` names which one a flush invokes. -/

inductive BackendLevel where
  | trace
  | debug
  | info
  | warn
  | critical
  deriving DecidableEq, Repr

/-- The spdlog ordinal of each emission primitive
(`spdlog::level::level_enum`: trace = 0, debug = 1, info = 2, warn = 3,
err = 4, critical = 5). -/
def BackendLevel.ord : BackendLevel → Nat
  | .trace => 0
  | .debug => 1
  | .info => 2
  | .warn => 3
  | .critical => 5

/-- Which backend emission primitive the destructor of `SpdLogStream`
selects for a given `log_severity_`: the `switch` in
`SpdLogStream::~SpdLogStream` (logger.h lines 114-135), including its
`default:` arm. -/
def spdDispatch (log_severity : Int) : BackendLevel :=
  if log_severity = SPD_ONLY_TRACE then .trace
  else if log_severity = SPD_ONLY_DEBUG then .debug
  else if log_severity = INFO then .info
  else if log_severity = WARNING then .warn
  else if log_severity = ERROR then .critical
  else .trace

/-! ## The backend logger and sink state

A `SpdLogger` models the `spdlog::logger` object a `Logger` wraps: a
name, a mutable level (spdlog ordinal) and a reference to its sink.  A
sink is modelled by the list of records it has received, newest last. -/

structure SinkRecord where
  loggerName : String
  level : Nat
  msg : String
  deriving DecidableEq, Repr

structure SpdLogger where
  name : String
  level : Nat
  sinkRef : Nat
  deriving DecidableEq, Repr

/-- Modelled backend behaviour (spdlog, the external collaborator): an
emission primitive invoked on a logger forwards the record to the sink
iff the primitive's level is at or above the logger's configured level
(`should_log`); otherwise the record is dropped.  The spec describes the
threshold as "minimum Severity a Logger will emit". -/
def spdEmit (lg : SpdLogger) (lvl : BackendLevel) (msg : String)
    (sink : List SinkRecord) : List SinkRecord :=
  if lg.level ≤ lvl.ord then sink ++ [⟨lg.name, lvl.ord, msg⟩] else sink

/-! ## SpdLogStream (logger.h lines 110-146)

The stream value a log call produces: an `ostringstream` plus the target
logger reference and the severity fixed at construction.  `operator<<`
converts its argument to text and appends it; the destructor flushes the
accumulated text through the emission primitive selected by
`spdDispatch`. -/

structure SpdLogStream where
  stream_ : String
  log_severity_ : Int
  deriving Repr

/-- `SpdLogStream(logger, log_severity)`: empty accumulated text. -/
def SpdLogStream.construct (log_severity : Int) : SpdLogStream :=
  ⟨"", log_severity⟩

/-- `operator<<(T&& t)`: `stream_ << t` — the argument's text conversion
runs unconditionally and the text is appended. -/
def SpdLogStream.append (s : SpdLogStream) (t : String) : SpdLogStream :=
  { s with stream_ := s.stream_ ++ t }

/-- The backend calls `~SpdLogStream()` makes: each `case` of the
`switch` performs exactly one emission of `stream_.str()` at the
dispatched level and then `break`s; the `default:` arm also emits, at
`trace`. -/
def SpdLogStream.dtorCalls (s : SpdLogStream) : List (BackendLevel × String) :=
  if s.log_severity_ = SPD_ONLY_TRACE then [(.trace, s.stream_)]
  else if s.log_severity_ = SPD_ONLY_DEBUG then [(.debug, s.stream_)]
  else if s.log_severity_ = INFO then [(.info, s.stream_)]
  else if s.log_severity_ = WARNING then [(.warn, s.stream_)]
  else if s.log_severity_ = ERROR then [(.critical, s.stream_)]
  else [(.trace, s.stream_)]

/-- Effect of `~SpdLogStream()` on the sink of the target logger: the
emission calls of `dtorCalls`, filtered by the backend's level check. -/
def SpdLogStream.destruct (s : SpdLogStream) (lg : SpdLogger)
    (sink : List SinkRecord) : List SinkRecord :=
  (s.dtorCalls).foldl (fun acc c => spdEmit lg c.1 c.2 acc) sink

theorem dtorCalls_eq_dispatch (s : SpdLogStream) :
    s.dtorCalls = [(spdDispatch s.log_severity_, s.stream_)] := by
  unfold SpdLogStream.dtorCalls spdDispatch
  repeat' split
  all_goals rfl

/-- C2: On flush the record's severity selects the backend emission
primitive per the destructor's `switch`: the trace-only and debug-only
severities route to the two lowest backend primitives (`trace`, ordinal
0, and `debug`, ordinal 1); `INFO`, `WARNING`, `ERROR` route one-to-one
to the backend's `info`, `warn`, `critical` primitives (the remaining
three primitives the backend supplies, in order); and every severity
value outside the recognized set {1,2,3,4,5} routes to the lowest
primitive (`trace`) — no severity is dropped by the dispatch. -/
theorem c2_flush_severity_backend_mapping :
    spdDispatch SPD_ONLY_TRACE = .trace ∧
    spdDispatch SPD_ONLY_DEBUG = .debug ∧
    BackendLevel.trace.ord = 0 ∧ BackendLevel.debug.ord = 1 ∧
    (∀ l : BackendLevel, BackendLevel.trace.ord ≤ l.ord ∧
      (l ≠ .trace → BackendLevel.debug.ord ≤ l.ord)) ∧
    spdDispatch INFO = .info ∧
    spdDispatch WARNING = .warn ∧
    spdDispatch ERROR = .critical ∧
    ([INFO, WARNING, ERROR].map spdDispatch).Nodup ∧
    (∀ sev : Int, sev ∉ ([SPD_ONLY_TRACE, SPD_ONLY_DEBUG, INFO, WARNING,
        ERROR] : List Int) → spdDispatch sev = .trace) := by
  refine ⟨rfl, rfl, rfl, rfl, ?_, rfl, rfl, rfl, by decide, ?_⟩
  · intro l
    cases l <;> simp [BackendLevel.ord]
  · intro sev h
    simp only [List.mem_cons, List.not_mem_nil, or_false, not_or] at h
    obtain ⟨h1, h2, h3, h4, h5⟩ := h
    simp [spdDispatch, h1, h2, h3, h4, h5]

theorem c2_flush_severity_backend_mapping_witness :
    ((42 : Int) ∉ ([SPD_ONLY_TRACE, SPD_ONLY_DEBUG, INFO, WARNING,
        ERROR] : List Int)) ∧ spdDispatch 42 = .trace := by
  refine ⟨by decide, ?_⟩
  exact c2_flush_severity_backend_mapping.2.2.2.2.2.2.2.2.2 42 (by decide)

/-- C10: destroying a stream constructed at `FATAL` severity (ordinal 6,
which has no dedicated `case` in the destructor's `switch`) emits the
accumulated text through the lowest backend primitive, `trace` — not
through a critical-level primitive — and the dispatch performs exactly
one emission call carrying the accumulated text, so the record is not
dropped. -/
theorem c10_fatal_routes_to_trace (text : String) :
    spdDispatch FATAL = .trace ∧
    BackendLevel.trace ≠ BackendLevel.critical ∧
    BackendLevel.trace.ord = 0 ∧
    (SpdLogStream.mk text FATAL).dtorCalls = [(.trace, text)] := by
  refine ⟨rfl, by decide, rfl, ?_⟩
  rw [dtorCalls_eq_dispatch]
  rfl

/-! ## Context formatting (logger.h lines 260-262 and 280-282)

The `conn_log` and `stream_log` macros build their message text as
`fmt::format("[C{}] " FORMAT, (CONNECTION).id(), ...)` and
`fmt::format("[C{}][S{}] " FORMAT, (STREAM).connectionId(),
(STREAM).streamId(), ...)`: the id(s) are prepended to the caller's
argument list and the context prefix to the caller's format string.
`fmtRun` models the backend formatter: each `{}` placeholder is replaced
by the next argument's text, in order. -/

def fmtRun : List Char → List String → List Char
  | [], _ => []
  | '\x7b' :: '\x7d' :: rest, a :: as => a.data ++ fmtRun rest as
  | '\x7b' :: '\x7d' :: rest, [] => '\x7b' :: '\x7d' :: fmtRun rest []
  | c :: rest, as => c :: fmtRun rest as

def fmtFormat (f : String) (args : List String) : String :=
  ⟨fmtRun f.data args⟩

structure Connection where
  id : Nat
  deriving DecidableEq, Repr

structure HttpStream where
  connectionId : Nat
  streamId : Nat
  deriving DecidableEq, Repr

/-- The text the `conn_log` macro streams; the spec names this helper
`format_connection_log`. -/
def format_connection_log (f : String) (c : Connection)
    (args : List String) : String :=
  fmtFormat ("[C\x7b\x7d] " ++ f) (toString c.id :: args)

/-- The text the `stream_log` macro streams; the spec names this helper
`format_stream_log`. -/
def format_stream_log (f : String) (s : HttpStream)
    (args : List String) : String :=
  fmtFormat ("[C\x7b\x7d][S\x7b\x7d] " ++ f)
    (toString s.connectionId :: toString s.streamId :: args)

theorem fmtRun_connPrefix (f : List Char) (a : String) (as : List String) :
    fmtRun ('[' :: 'C' :: '\x7b' :: '\x7d' :: ']' :: ' ' :: f) (a :: as) =
      '[' :: 'C' :: (a.data ++ (']' :: ' ' :: fmtRun f as)) := rfl

theorem fmtRun_streamPrefix (f : List Char) (a b : String)
    (as : List String) :
    fmtRun ('[' :: 'C' :: '\x7b' :: '\x7d' :: ']' :: '[' :: 'S' ::
        '\x7b' :: '\x7d' :: ']' :: ' ' :: f) (a :: b :: as) =
      '[' :: 'C' :: (a.data ++ (']' :: '[' :: 'S' ::
        (b.data ++ (']' :: ' ' :: fmtRun f as)))) := rfl

/-- C7: `format_connection_log(format, connection, args)` is exactly
`"[C<connection.id()>] "` followed by `format` applied to `args`, and
`format_stream_log(format, stream, args)` is exactly
`"[C<stream.connectionId()>][S<stream.streamId()>] "` followed by
`format` applied to `args`; in particular
`format_connection_log "msg {}" (connection 7) [42] = "[C7] msg 42"` and
`format_stream_log "msg {}" (stream 7 3) [42] = "[C7][S3] msg 42"`.
Both helpers are pure `String`-valued functions of their arguments: they
take no sink or registry state. -/
theorem c7_context_formatting_helpers :
    (∀ (f : String) (c : Connection) (args : List String),
      format_connection_log f c args =
        "[C" ++ toString c.id ++ "] " ++ fmtFormat f args) ∧
    (∀ (f : String) (s : HttpStream) (args : List String),
      format_stream_log f s args =
        "[C" ++ toString s.connectionId ++ "][S" ++ toString s.streamId ++
          "] " ++ fmtFormat f args) ∧
    format_connection_log "msg \x7b\x7d" ⟨7⟩ [toString (42 : Nat)] =
      "[C7] msg 42" ∧
    format_stream_log "msg \x7b\x7d" ⟨7, 3⟩ [toString (42 : Nat)] =
      "[C7][S3] msg 42" := by
  refine ⟨?_, ?_, by decide, by decide⟩
  · intro f c args
    apply String.ext
    show fmtRun (("[C\x7b\x7d] " ++ f).data) (toString c.id :: args) = _
    rw [String.data_append]
    show fmtRun ('[' :: 'C' :: '\x7b' :: '\x7d' :: ']' :: ' ' :: f.data)
      (toString c.id :: args) = _
    rw [fmtRun_connPrefix]
    simp [String.data_append, fmtFormat]
  · intro f s args
    apply String.ext
    show fmtRun (("[C\x7b\x7d][S\x7b\x7d] " ++ f).data)
      (toString s.connectionId :: toString s.streamId :: args) = _
    rw [String.data_append]
    show fmtRun ('[' :: 'C' :: '\x7b' :: '\x7d' :: ']' :: '[' :: 'S' ::
        '\x7b' :: '\x7d' :: ']' :: ' ' :: f.data)
      (toString s.connectionId :: toString s.streamId :: args) = _
    rw [fmtRun_streamPrefix]
    simp [String.data_append, fmtFormat]

/-! ## Logger wrapper (logger.h lines 166-179)

`Logger` wraps a shared `spdlog::logger`; `setLevel` forwards to
`logger_->set_level(level)` (the argument is a `spdlog::level::level_enum`
ordinal) and `name` to `logger_->name()`. -/

structure Logger where
  logger_ : SpdLogger
  deriving DecidableEq, Repr

def Logger.name (lg : Logger) : String := lg.logger_.name

def Logger.setLevel (lg : Logger) (level : Nat) : Logger :=
  { logger_ := { lg.logger_ with level := level } }

/-- The text accumulated by appending each piece in order to an initially
empty `ostringstream`. -/
def streamText (msgs : List String) : String :=
  msgs.foldl (· ++ ·) ""

/-- A whole log statement: construct the stream at `sev`, append `msgs`
in order, destroy the stream (the destructor runs when the statement's
scope is left). -/
def runLogStatement (lg : Logger) (sev : Int) (msgs : List String)
    (sink : List SinkRecord) : List SinkRecord :=
  (msgs.foldl SpdLogStream.append (SpdLogStream.construct sev)).destruct
    lg.logger_ sink

theorem foldl_append_eq (msgs : List String) (acc : String) (sev : Int) :
    msgs.foldl SpdLogStream.append ⟨acc, sev⟩ =
      ⟨msgs.foldl (· ++ ·) acc, sev⟩ := by
  induction msgs generalizing acc with
  | nil => rfl
  | cons m ms ih => exact ih (acc ++ m)

theorem runLogStatement_eq (lg : Logger) (sev : Int) (msgs : List String)
    (sink : List SinkRecord) :
    runLogStatement lg sev msgs sink =
      spdEmit lg.logger_ (spdDispatch sev) (streamText msgs) sink := by
  unfold runLogStatement
  rw [show msgs.foldl SpdLogStream.append (SpdLogStream.construct sev) =
      (⟨streamText msgs, sev⟩ : SpdLogStream) from foldl_append_eq msgs "" sev]
  unfold SpdLogStream.destruct
  rw [dtorCalls_eq_dispatch]
  rfl

/-- C5: after `setLevel(warning)` (spdlog ordinal 3) on a Logger, a log
call at `INFO` severity delivers no record to the sink (the backend drops
the `info`-level emission), and a log call at `ERROR` severity delivers
exactly one record (the destructor's `critical`-level emission passes the
level check). -/
theorem c5_setLevel_warning_filtering (lg : Logger)
    (sink : List SinkRecord) (msgs msgs' : List String) :
    runLogStatement (lg.setLevel BackendLevel.warn.ord) INFO msgs sink =
      sink ∧
    runLogStatement (lg.setLevel BackendLevel.warn.ord) ERROR msgs' sink =
      sink ++ [⟨lg.logger_.name, BackendLevel.critical.ord,
        streamText msgs'⟩] := by
  rw [runLogStatement_eq, runLogStatement_eq]
  constructor
  · show spdEmit _ (spdDispatch INFO) _ _ = _
    rw [show spdDispatch INFO = .info from rfl]
    simp [spdEmit, BackendLevel.ord, Logger.setLevel]
  · show spdEmit _ (spdDispatch ERROR) _ _ = _
    rw [show spdDispatch ERROR = .critical from rfl]
    simp [spdEmit, BackendLevel.ord, Logger.setLevel]

/-! ## Instrumented appends (claim C1)

Each `operator<<` runs its argument's text conversion unconditionally
(`stream_ << t`) and appends the produced text; `runLogCounting` counts
how many conversions a whole log statement performs. -/

def runLogCounting (lg : Logger) (sev : Int) (args : List String)
    (sink : List SinkRecord) : List SinkRecord × Nat :=
  let p := args.foldl (fun (p : SpdLogStream × Nat) t => (p.1.append t, p.2 + 1))
    (SpdLogStream.construct sev, 0)
  (p.1.destruct lg.logger_ sink, p.2)

theorem foldl_count_eq (args : List String) (acc : String) (n : Nat)
    (sev : Int) :
    args.foldl (fun (p : SpdLogStream × Nat) t => (p.1.append t, p.2 + 1))
      ((⟨acc, sev⟩ : SpdLogStream), n) =
      ((⟨args.foldl (· ++ ·) acc, sev⟩ : SpdLogStream), n + args.length) := by
  induction args generalizing acc n with
  | nil => rfl
  | cons a as ih =>
    show as.foldl _ ((⟨acc ++ a, sev⟩ : SpdLogStream), n + 1) = _
    rw [ih (acc ++ a) (n + 1)]
    simp [List.length_cons]
    omega

/-- A demonstration logger whose threshold is spdlog `warn`. -/
def demoWarnLogger : Logger := ⟨⟨"filter", BackendLevel.warn.ord, 0⟩⟩

/-- C1 counterexample: with the target logger's threshold at `warn`, an
`INFO`-severity log statement with one appended argument performs the
argument's text conversion once — not zero times as the claim states —
even though the severity does not clear the threshold and no record
reaches the sink. -/
theorem c1_counterexample :
    (spdDispatch INFO).ord < demoWarnLogger.logger_.level ∧
    runLogCounting demoWarnLogger INFO ["expensive"] [] = ([], 1) ∧
    (1 : Nat) ≠ 0 := by
  refine ⟨by decide, ?_, by decide⟩
  rfl

/-- C1 (amended): when the requested severity does not clear the target
logger's threshold, the log statement delivers no record to the sink,
but the stream is not lazy: every appended argument's text conversion is
still evaluated, exactly once per append (the count is the number of
appends, not zero); suppression happens only at flush, through the
backend's level check. -/
theorem c1_amended_conversions_still_run (lg : Logger) (sev : Int)
    (args : List String) (sink : List SinkRecord)
    (h : ¬ lg.logger_.level ≤ (spdDispatch sev).ord) :
    runLogCounting lg sev args sink = (sink, args.length) := by
  unfold runLogCounting
  rw [show (SpdLogStream.construct sev, 0) =
      ((⟨"", sev⟩ : SpdLogStream), 0) from rfl, foldl_count_eq]
  simp only [Nat.zero_add]
  unfold SpdLogStream.destruct
  rw [dtorCalls_eq_dispatch]
  simp [spdEmit, h]

theorem c1_amended_conversions_still_run_witness :
    (¬ demoWarnLogger.logger_.level ≤ (spdDispatch INFO).ord) ∧
    runLogCounting demoWarnLogger INFO ["x", "y"] [] = ([], 2) :=
  ⟨by decide, c1_amended_conversions_still_run demoWarnLogger INFO
    ["x", "y"] [] (by decide)⟩

/-! ## Scope exit (claim C3)

C++ guarantees the destructor of a block-scoped value runs exactly once
whichever way control leaves the scope — normal fall-through, early
return, or exception propagation.  `ExitKind` enumerates the exit paths;
an early exit may cut the append sequence short (after `k` appends), but
in every case the destructor then runs exactly once. -/

inductive ExitKind where
  | fallthrough
  | earlyReturn (appendsDone : Nat)
  | exn (appendsDone : Nat)
  deriving DecidableEq, Repr

def appendsFor : ExitKind → List String → List String
  | .fallthrough, msgs => msgs
  | .earlyReturn k, msgs => msgs.take k
  | .exn k, msgs => msgs.take k

def runLogScope (e : ExitKind) (lg : Logger) (sev : Int)
    (msgs : List String) (sink : List SinkRecord) : List SinkRecord :=
  runLogStatement lg sev (appendsFor e msgs) sink

/-- C3: for a stream whose severity clears the target logger's threshold,
every exit path — fall-through, early return after any number of appends,
or exception after any number of appends — flushes the accumulated text
to the target logger exactly once: the sink gains exactly one record
(never zero, never two), carrying the text accumulated before the exit at
the level dispatched from the record's severity; and the destructor
itself makes exactly one emission call for any stream. -/
theorem c3_flush_exactly_once (lg : Logger) (sev : Int)
    (h : lg.logger_.level ≤ (spdDispatch sev).ord) :
    ∀ (e : ExitKind) (msgs : List String) (sink : List SinkRecord),
      runLogScope e lg sev msgs sink =
        sink ++ [⟨lg.logger_.name, (spdDispatch sev).ord,
          streamText (appendsFor e msgs)⟩] ∧
      (∀ s : SpdLogStream, s.dtorCalls.length = 1) := by
  intro e msgs sink
  refine ⟨?_, fun s => by rw [dtorCalls_eq_dispatch]; rfl⟩
  unfold runLogScope
  rw [runLogStatement_eq]
  simp [spdEmit, h, Logger.name]

theorem c3_flush_exactly_once_witness :
    (demoWarnLogger.logger_.level ≤ (spdDispatch ERROR).ord) ∧
    runLogScope (.exn 1) demoWarnLogger ERROR ["a", "b"] [] =
      [⟨"filter", BackendLevel.critical.ord, streamText ["a"]⟩] := by
  refine ⟨by decide, ?_⟩
  have h := c3_flush_exactly_once demoWarnLogger ERROR (by decide)
    (.exn 1) ["a", "b"] []
  rw [h.1]
  rfl

/-! ## LoggerId (logger.h lines 41-64)

`ALL_LOGGER_IDS(FUNCTION)` lists the subsystem tags, in declaration
order; `enum class Id` is generated from it. -/

inductive Id where
  | admin
  | assert
  | backtrace
  | client
  | config
  | connection
  | file
  | filter
  | hc
  | http
  | http2
  | main
  | mongo
  | pool
  | redis
  | router
  | runtime
  | testing
  | upstream
  deriving DecidableEq, Repr, Fintype

/-- The tag tokens of the `ALL_LOGGER_IDS` x-macro, in declaration
order. -/
def ALL_LOGGER_IDS : List String :=
  ["admin", "assert", "backtrace", "client", "config", "connection",
   "file", "filter", "hc", "http", "http2", "main", "mongo", "pool",
   "redis", "router", "runtime", "testing", "upstream"]

/-- The enumerators of `Id`, in declaration order. -/
def idList : List Id :=
  [.admin, .assert, .backtrace, .client, .config, .connection, .file,
   .filter, .hc, .http, .http2, .main, .mongo, .pool, .redis, .router,
   .runtime, .testing, .upstream]

/-- The canonical string form of a tag (the x-macro token). -/
def idName : Id → String
  | .admin => "admin"
  | .assert => "assert"
  | .backtrace => "backtrace"
  | .client => "client"
  | .config => "config"
  | .connection => "connection"
  | .file => "file"
  | .filter => "filter"
  | .hc => "hc"
  | .http => "http"
  | .http2 => "http2"
  | .main => "main"
  | .mongo => "mongo"
  | .pool => "pool"
  | .redis => "redis"
  | .router => "router"
  | .runtime => "runtime"
  | .testing => "testing"
  | .upstream => "upstream"

/-- The underlying value of the `enum class` member (its declaration
index), used as the index into `Registry::all_loggers_`. -/
def idIndex : Id → Nat
  | .admin => 0
  | .assert => 1
  | .backtrace => 2
  | .client => 3
  | .config => 4
  | .connection => 5
  | .file => 6
  | .filter => 7
  | .hc => 8
  | .http => 9
  | .http2 => 10
  | .main => 11
  | .mongo => 12
  | .pool => 13
  | .redis => 14
  | .router => 15
  | .runtime => 16
  | .testing => 17
  | .upstream => 18

theorem idName_inj : ∀ a b : Id, idName a = idName b → a = b := by decide

/-! ## Registry (logger.h lines 199-245)

`Registry::all_loggers_` and the body of `Registry::getLog` live in a
`logger.cc` that is not part of the excerpt; they are modelled from the
spec.  `Registry::getSink` is fully in the header: a function-local
static `shared_ptr<LockingStderrSink>`, constructed on the first call
and returned unchanged on every later call. -/

def defaultLogger : Logger := ⟨⟨"", 0, 0⟩⟩

structure RegistryState where
  all_loggers_ : List Logger
  sinkCell : Option Nat
  fresh : Nat
  deriving Repr

/-- `Registry::getSink()` (logger.h lines 214-217): the function-local
static is constructed exactly once; afterwards every call returns the
stored handle and leaves the state unchanged. -/
def Registry.getSink (s : RegistryState) : Nat × RegistryState :=
  match s.sinkCell with
  | some k => (k, s)
  | none => (s.fresh, { s with sinkCell := some s.fresh, fresh := s.fresh + 1 })

/-- Modelled from the spec: the one-time construction of
`Registry::all_loggers_` (its definition lives in `logger.cc`, absent
from the excerpt) — one `Logger` per `Id`, in declaration order, each
named by its tag, all sharing the single sink, all starting at one
uniform level. -/
def Registry.initialState (lvl : Nat) : RegistryState :=
  { all_loggers_ := ALL_LOGGER_IDS.map (fun n => ⟨⟨n, lvl, 0⟩⟩),
    sinkCell := some 0,
    fresh := 1 }

/-- Modelled from the spec: `Registry::getLog(id)` (body in the absent
`logger.cc`) returns the stable `Logger` for `id` — the element of
`all_loggers_` at the tag's declaration index. -/
def Registry.getLog (s : RegistryState) (id : Id) : Logger :=
  s.all_loggers_.getD (idIndex id) defaultLogger

/-- An administrative `setLevel` on the Logger of tag `id`: only the
threshold field of the shared backend logger mutates. -/
def setLoggerLevel (s : RegistryState) (id : Id) (lvl : Nat) : RegistryState :=
  { s with all_loggers_ :=
      s.all_loggers_.set (idIndex id) ((Registry.getLog s id).setLevel lvl) }

/-- Any finite history of administrative level changes. -/
def applyOps (ops : List (Id × Nat)) (s : RegistryState) : RegistryState :=
  ops.foldl (fun s op => setLoggerLevel s op.1 op.2) s

/-- The identity-relevant fields of a logger: its name and the sink it
references (the fields `setLevel` never touches). -/
def loggerIdent (lg : Logger) : String × Nat :=
  (lg.logger_.name, lg.logger_.sinkRef)

def identsOf (s : RegistryState) : List (String × Nat) :=
  s.all_loggers_.map loggerIdent

theorem set_map_preserving (g : Logger → Logger)
    (hg : ∀ lg, loggerIdent (g lg) = loggerIdent lg) :
    ∀ (xs : List Logger) (i : Nat),
      (xs.set i (g (xs.getD i defaultLogger))).map loggerIdent =
        xs.map loggerIdent := by
  intro xs
  induction xs with
  | nil => intro i; rfl
  | cons x rest ih =>
    intro i
    cases i with
    | zero => simp [List.set, hg x]
    | succ j =>
      show loggerIdent x ::
          (rest.set j (g (rest.getD j defaultLogger))).map loggerIdent =
        loggerIdent x :: rest.map loggerIdent
      rw [ih j]

theorem identsOf_setLoggerLevel (s : RegistryState) (id : Id) (lvl : Nat) :
    identsOf (setLoggerLevel s id lvl) = identsOf s := by
  unfold identsOf setLoggerLevel Registry.getLog
  exact set_map_preserving (fun lg => lg.setLevel lvl) (fun _ => rfl)
    s.all_loggers_ (idIndex id)

theorem identsOf_applyOps (ops : List (Id × Nat)) (s : RegistryState) :
    identsOf (applyOps ops s) = identsOf s := by
  induction ops generalizing s with
  | nil => rfl
  | cons op rest ih =>
    show identsOf (applyOps rest (setLoggerLevel s op.1 op.2)) = _
    rw [ih, identsOf_setLoggerLevel]

theorem idents_getD : ∀ (xs : List Logger) (i : Nat),
    (xs.map loggerIdent).getD i ("", 0) =
      loggerIdent (xs.getD i defaultLogger) := by
  intro xs
  induction xs with
  | nil => intro i; rfl
  | cons x rest ih =>
    intro i
    cases i with
    | zero => rfl
    | succ j => exact ih j

theorem ident_initial (lvl : Nat) (id : Id) :
    (identsOf (Registry.initialState lvl)).getD (idIndex id) ("", 0) =
      (idName id, 0) := by
  cases id <;> rfl

theorem getLog_ident (lvl : Nat) (ops : List (Id × Nat)) (id : Id) :
    loggerIdent (Registry.getLog (applyOps ops (Registry.initialState lvl)) id)
      = (idName id, 0) := by
  rw [Registry.getLog, ← idents_getD]
  show (identsOf _).getD _ _ = _
  rw [identsOf_applyOps, ident_initial]

/-- C4: over the whole process life (any history of administrative level
changes applied to the registry built at startup), `getLog(id)` is total
and stable — it always returns the Logger whose identity (name and sink
reference) is the one created for `id` — and the mapping is injective:
distinct tags yield distinct Loggers. -/
theorem c4_getLog_total_stable_injective (lvl : Nat)
    (ops ops' : List (Id × Nat)) (id id' : Id) :
    (Registry.getLog (applyOps ops (Registry.initialState lvl)) id).name =
      idName id ∧
    loggerIdent (Registry.getLog (applyOps ops (Registry.initialState lvl)) id)
      = loggerIdent
          (Registry.getLog (applyOps ops' (Registry.initialState lvl)) id) ∧
    (id ≠ id' →
      Registry.getLog (applyOps ops (Registry.initialState lvl)) id ≠
        Registry.getLog (applyOps ops (Registry.initialState lvl)) id') := by
  refine ⟨?_, ?_, ?_⟩
  · have h := getLog_ident lvl ops id
    exact congrArg Prod.fst h
  · rw [getLog_ident, getLog_ident]
  · intro hne heq
    apply hne
    apply idName_inj
    have h := congrArg (fun lg => (loggerIdent lg).1) heq
    simpa [getLog_ident lvl ops id, getLog_ident lvl ops id'] using h

theorem c4_getLog_total_stable_injective_witness :
    (Id.http ≠ Id.http2) ∧
    Registry.getLog (applyOps [(Id.http, 0)] (Registry.initialState 2))
        Id.http ≠
      Registry.getLog (applyOps [(Id.http, 0)] (Registry.initialState 2))
        Id.http2 :=
  ⟨by decide,
    (c4_getLog_total_stable_injective 2 [(Id.http, 0)] [] Id.http
      Id.http2).2.2 (by decide)⟩

/-- C6 counterexample: the claim's closed tag set contains
`health-check`, but the `ALL_LOGGER_IDS` x-macro's ninth token — and
hence the ninth `Id` enumerator — is `hc`; `health-check` names no tag
at all. -/
theorem c6_counterexample :
    "health-check" ∉ ALL_LOGGER_IDS ∧
    ALL_LOGGER_IDS.getD 8 "" = "hc" ∧
    idName Id.hc = "hc" := by
  decide

/-- C6 (amended): the `Id` enumeration is exactly the closed set of the
nineteen subsystem tags {admin, assert, backtrace, client, config,
connection, file, filter, hc, http, http2, main, mongo, pool, redis,
router, runtime, testing, upstream} — `hc` (the health-check subsystem),
not the spelling `health-check` — fixed at build time; and the Registry
holds one Logger per tag, named by it, in declaration order, with
membership immutable under every later history of level changes. -/
theorem c6_amended_id_enumeration (lvl : Nat) (ops : List (Id × Nat)) :
    (∀ i : Id, i ∈ idList) ∧
    idList.Nodup ∧
    idList.map idName = ALL_LOGGER_IDS ∧
    ALL_LOGGER_IDS.length = 19 ∧
    (applyOps ops (Registry.initialState lvl)).all_loggers_.map loggerIdent
      = ALL_LOGGER_IDS.map (fun n => (n, 0)) := by
  refine ⟨by decide, by decide, by decide, by decide, ?_⟩
  show identsOf _ = _
  rw [identsOf_applyOps]
  rfl

/-! ## The single shared sink (claim C8)

`getSinkCalls n s` is the list of handles returned by `n` successive
calls to `Registry::getSink`, threading the state. -/

def getSinkCalls : Nat → RegistryState → List Nat
  | 0, _ => []
  | n + 1, s =>
    let r := Registry.getSink s
    r.1 :: getSinkCalls n r.2

theorem getSink_stable (s : RegistryState) :
    Registry.getSink (Registry.getSink s).2 =
      ((Registry.getSink s).1, (Registry.getSink s).2) := by
  unfold Registry.getSink
  cases h : s.sinkCell <;> simp [h]

/-- C8: exactly one sink is ever handed out — every handle returned by
any number of successive `getSink` calls equals the first call's handle
(the function-local static is constructed once) — and every Logger in the
registry, at every point of the process life, references that same
sink. -/
theorem c8_single_shared_sink :
    (∀ (n : Nat) (s : RegistryState) (k : Nat),
      k ∈ getSinkCalls n s → k = (Registry.getSink s).1) ∧
    (∀ (lvl : Nat) (ops : List (Id × Nat)) (id : Id),
      (Registry.getLog (applyOps ops (Registry.initialState lvl))
          id).logger_.sinkRef =
        (Registry.getSink (Registry.initialState lvl)).1) := by
  constructor
  · intro n
    induction n with
    | zero => intro s k hk; exact absurd hk (List.not_mem_nil k)
    | succ m ih =>
      intro s k hk
      rcases List.mem_cons.mp hk with h | h
      · exact h
      · have := ih (Registry.getSink s).2 k h
        rw [getSink_stable] at this
        exact this
  · intro lvl ops id
    have h := getLog_ident lvl ops id
    have := congrArg Prod.snd h
    simpa [loggerIdent, Registry.getSink, Registry.initialState] using this

theorem c8_single_shared_sink_witness :
    ((0 : Nat) ∈ getSinkCalls 3 (Registry.initialState 2)) ∧
    (0 : Nat) = (Registry.getSink (Registry.initialState 2)).1 :=
  ⟨by decide,
    c8_single_shared_sink.1 3 (Registry.initialState 2) 0 (by decide)⟩

/-! ## Sink locking discipline (claim C9)

The glog-branch `LockingStderrSink::send` (logger.h lines 94-101) takes
`Thread::OptionalLockGuard<Thread::BasicLockable> guard(lock_)` and then
performs the whole write; the spdlog-branch `log`/`flush` bodies live in
the absent `logger.cc` and are modelled from the spec: with a lock
attached (`setLock`), a write is `acquire, emit all bytes, release`;
with `lock_` null the guard does nothing and the write is just the
bytes.  Two concurrent writes are modelled by all interleavings of the
two threads' event sequences that respect the lock (an acquire only
fires when the lock is free, a release only by the holder). -/

inductive Ev where
  | acq (t : Bool)
  | rel (t : Bool)
  | out (t : Bool) (c : Char)
  deriving DecidableEq, Repr

/-- One sink write of message `m` by thread `t` with a lock attached:
the `OptionalLockGuard` holds the lock for the full duration. -/
def lockedProg (t : Bool) (m : List Char) : List Ev :=
  Ev.acq t :: m.map (Ev.out t) ++ [Ev.rel t]

/-- One sink write of message `m` by thread `t` with no lock attached
(`lock_` null: the guard is a no-op). -/
def unlockedProg (t : Bool) (m : List Char) : List Ev :=
  m.map (Ev.out t)

/-- `Interleave xs ys zs`: `zs` is an order-preserving interleaving of
the two threads' event sequences `xs` and `ys`. -/
inductive Interleave : List Ev → List Ev → List Ev → Prop where
  | nil : Interleave [] [] []
  | left {x xs ys zs} : Interleave xs ys zs → Interleave (x :: xs) ys (x :: zs)
  | right {y xs ys zs} : Interleave xs ys zs → Interleave xs (y :: ys) (y :: zs)

/-- `LockValid h tr`: starting with the lock in state `h` (`none` =
free), the trace respects the lock: an acquire fires only when the lock
is free, a release only by the current holder; byte emissions are
unconstrained by the lock itself. -/
inductive LockValid : Option Bool → List Ev → Prop where
  | nil {h} : LockValid h []
  | acq {t tr} : LockValid (some t) tr → LockValid none (Ev.acq t :: tr)
  | rel {t tr} : LockValid none tr → LockValid (some t) (Ev.rel t :: tr)
  | out {h t c tr} : LockValid h tr → LockValid h (Ev.out t c :: tr)

/-- The bytes that reach stderr, with the thread that wrote each. -/
def outsOf : List Ev → List (Bool × Char)
  | [] => []
  | Ev.out t c :: tr => (t, c) :: outsOf tr
  | _ :: tr => outsOf tr

def taggedMsg (t : Bool) (m : List Char) : List (Bool × Char) :=
  m.map (fun c => (t, c))

theorem outsOf_nil : outsOf [] = [] := rfl

theorem outsOf_acq (t : Bool) (tr : List Ev) :
    outsOf (Ev.acq t :: tr) = outsOf tr := rfl

theorem outsOf_rel (t : Bool) (tr : List Ev) :
    outsOf (Ev.rel t :: tr) = outsOf tr := rfl

theorem outsOf_out (t : Bool) (c : Char) (tr : List Ev) :
    outsOf (Ev.out t c :: tr) = (t, c) :: outsOf tr := rfl

theorem outsOf_map_append (t : Bool) (ws : List Char) (tr : List Ev) :
    outsOf (ws.map (Ev.out t) ++ tr) = taggedMsg t ws ++ outsOf tr := by
  induction ws with
  | nil => rfl
  | cons w ws ih =>
    show (t, w) :: outsOf (ws.map (Ev.out t) ++ tr) = _
    rw [ih]
    rfl

theorem interleave_eq_of_left_nil :
    ∀ {xs ys tr : List Ev}, Interleave xs ys tr → xs = [] → tr = ys := by
  intro xs ys tr h
  induction h with
  | nil => intro; rfl
  | left _ _ => intro hx; exact List.noConfusion hx
  | right _ ih => intro hx; rw [ih hx]

theorem interleave_swap :
    ∀ {xs ys tr : List Ev}, Interleave xs ys tr → Interleave ys xs tr := by
  intro xs ys tr h
  induction h with
  | nil => exact .nil
  | left _ ih => exact .right ih
  | right _ ih => exact .left ih

theorem interleave_nil_self : ∀ (ys : List Ev), Interleave [] ys ys := by
  intro ys
  induction ys with
  | nil => exact .nil
  | cons y ys ih => exact .right ih

theorem interleave_append : ∀ (xs ys : List Ev), Interleave xs ys (xs ++ ys) := by
  intro xs ys
  induction xs with
  | nil => exact interleave_nil_self ys
  | cons x xs ih => exact .left ih

/-- While thread `t` holds the lock, the other thread (whose next event
is an acquire) can contribute nothing: the trace runs thread `t`'s
remaining write to completion, then the rest. -/
theorem heldRun (t u : Bool) :
    ∀ (ws : List Char) (ys tr : List Ev),
      Interleave (ws.map (Ev.out t) ++ [Ev.rel t]) (Ev.acq u :: ys) tr →
      LockValid (some t) tr →
      tr = ws.map (Ev.out t) ++ Ev.rel t :: Ev.acq u :: ys := by
  intro ws
  induction ws with
  | nil =>
    intro ys tr hI hV
    cases hI with
    | left h =>
      have hz := interleave_eq_of_left_nil h rfl
      rw [hz]
      rfl
    | right h => cases hV
  | cons w ws ih =>
    intro ys tr hI hV
    cases hI with
    | left h =>
      cases hV with
      | out hV' => rw [ih ys _ h hV']; rfl
    | right h => cases hV

/-- With the lock attached, a valid concurrent execution of two sink
writes never interleaves their bytes: the output is one complete message
followed by the other. -/
theorem locked_no_interleaving (m0 m1 : List Char) (tr : List Ev)
    (hI : Interleave (lockedProg true m0) (lockedProg false m1) tr)
    (hV : LockValid none tr) :
    outsOf tr = taggedMsg true m0 ++ taggedMsg false m1 ∨
      outsOf tr = taggedMsg false m1 ++ taggedMsg true m0 := by
  unfold lockedProg at hI
  cases hI with
  | left h =>
    cases hV with
    | acq hV' =>
      left
      have hz := heldRun true false m0
        (m1.map (Ev.out false) ++ [Ev.rel false]) _ h hV'
      rw [hz, outsOf_acq, outsOf_map_append, outsOf_rel, outsOf_acq,
        outsOf_map_append, outsOf_rel, outsOf_nil, List.append_nil]
  | right h =>
    cases hV with
    | acq hV' =>
      right
      have h' := interleave_swap h
      have hz := heldRun false true m1
        (m0.map (Ev.out true) ++ [Ev.rel true]) _ h' hV'
      rw [hz, outsOf_acq, outsOf_map_append, outsOf_rel, outsOf_acq,
        outsOf_map_append, outsOf_rel, outsOf_nil, List.append_nil]

/-- C9: if a lock has been attached to the sink via `setLock`, every
write holds it for the full duration, so in every lock-respecting
interleaving of two threads' writes the emitted bytes are one complete
message followed by the other — never interleaved; with no lock
attached, writes are unsynchronized and an interleaved byte order is
possible (witnessed by a valid schedule whose output matches neither
whole-message order). -/
theorem c9_sink_locking_discipline :
    (∀ (m0 m1 : List Char) (tr : List Ev),
      Interleave (lockedProg true m0) (lockedProg false m1) tr →
      LockValid none tr →
      outsOf tr = taggedMsg true m0 ++ taggedMsg false m1 ∨
        outsOf tr = taggedMsg false m1 ++ taggedMsg true m0) ∧
    (∃ tr : List Ev,
      Interleave (unlockedProg true ['a', 'b'])
        (unlockedProg false ['c', 'd']) tr ∧
      LockValid none tr ∧
      outsOf tr ≠ taggedMsg true ['a', 'b'] ++ taggedMsg false ['c', 'd'] ∧
      outsOf tr ≠ taggedMsg false ['c', 'd'] ++ taggedMsg true ['a', 'b']) := by
  constructor
  · exact locked_no_interleaving
  · refine ⟨[Ev.out true 'a', Ev.out false 'c', Ev.out true 'b',
      Ev.out false 'd'], ?_, ?_, by decide, by decide⟩
    · exact .left (.right (.left (.right .nil)))
    · exact .out (.out (.out (.out .nil)))

theorem c9_sink_locking_discipline_witness :
    Interleave (lockedProg true ['x']) (lockedProg false ['y'])
      (lockedProg true ['x'] ++ lockedProg false ['y']) ∧
    LockValid none (lockedProg true ['x'] ++ lockedProg false ['y']) ∧
    (outsOf (lockedProg true ['x'] ++ lockedProg false ['y']) =
        taggedMsg true ['x'] ++ taggedMsg false ['y'] ∨
      outsOf (lockedProg true ['x'] ++ lockedProg false ['y']) =
        taggedMsg false ['y'] ++ taggedMsg true ['x']) := by
  refine ⟨interleave_append _ _, ?_, ?_⟩
  · exact .acq (.out (.rel (.acq (.out (.rel .nil)))))
  · exact c9_sink_locking_discipline.1 ['x'] ['y'] _ (interleave_append _ _)
      (.acq (.out (.rel (.acq (.out (.rel .nil))))))

end Envoy
